import Mathlib

/-!
Verification of the NiChart_sopNMF FireANTs registration orchestrator
(`src/utils/util_fireants.py`) against its natural-language specification.

The registration pipeline is embedded shallowly:

* `_get_profile_params` is a direct translation of the Python function of the
  same name (floats become rationals).
* `run_fireants_registration` is modelled as the sequential trace of externally
  visible actions the Python function performs (stage optimizations and file
  writes), parameterized by a `FireOracle` that stands for the FireANTs
  library's numerical results (image loading, fitted transforms, resampled
  images, serialized contents).  The orchestrator itself contains no numerics;
  every branch, configuration value and ordering in the trace is taken from the
  source.
* The internals of the FireANTs optimizers (identity seeding on a missing
  `init_rigid`, per-step gradient smoothing inside `GreedyRegistration`) are
  external library behaviour, not part of this repository; where a claim needs
  them they are modelled from the spec and marked as such.
-/

/-- Parameters returned by `_get_profile_params`: the Python function returns
the tuple `(scales, iterations, affine_lr, deform_lr)`. -/
structure ProfileParams where
  scales : List Nat
  iterations : List Nat
  affine_lr : ℚ
  deform_lr : ℚ
deriving DecidableEq

/-- Python's `str.lower()` on the profile name, modelled as character-wise
lowercasing of the string (the profile names compared against are ASCII). -/
def pyLower (s : String) : String :=
  String.mk (s.data.map Char.toLower)

/-- Translation of `_get_profile_params` (src/utils/util_fireants.py, lines
37-71).  The Python code lowercases the profile name, matches it against
`"test"`, `"quick"`, `"balanced"`, and falls back to the default parameters
for `"default"` and any unknown value. -/
def _get_profile_params (profile : String) : ProfileParams :=
  let p := pyLower profile
  if p = "test" then
    { scales := [4, 2, 1], iterations := [8, 2, 0], affine_lr := 3/1000, deform_lr := 1/2 }
  else if p = "quick" then
    { scales := [4, 2, 1], iterations := [100, 50, 0], affine_lr := 3/1000, deform_lr := 1/2 }
  else if p = "balanced" then
    { scales := [4, 2, 1], iterations := [50, 50, 25], affine_lr := 3/1000, deform_lr := 1/2 }
  else
    { scales := [4, 2, 1], iterations := [200, 100, 50], affine_lr := 3/1000, deform_lr := 1/2 }

/-- Translation of the deformable-iterations cap in `run_fireants_registration`
(lines 162-165):
`deform_iterations = list(iterations); if len(deform_iterations) >= 3 and
deform_iterations[-1] > 25: deform_iterations[-1] = 25`. -/
def capDeformIterations (iterations : List Nat) : List Nat :=
  if 3 ≤ iterations.length ∧ 25 < iterations.getLastD 0 then
    iterations.dropLast ++ [25]
  else
    iterations

/-- Keyword arguments of the `MomentsRegistration` constructor call
(lines 108-118).  Image tokens stand for the batched fixed/moving images. -/
structure MomentsConfig where
  scale : ℚ
  fixedImg : Int
  movingImg : Int
  moments : Nat
  orientation : String
  blur : Bool
  loss_type : String
  cc_kernel_type : String
  cc_kernel_size : Nat
deriving DecidableEq

/-- Keyword arguments of the `AffineRegistration` constructor call
(lines 139-149). -/
structure AffineConfig where
  scales : List Nat
  iterations : List Nat
  fixedImg : Int
  movingImg : Int
  init_rigid : Option Int
  loss_type : String
  optimizer : String
  optimizer_lr : ℚ
  cc_kernel_size : Nat
deriving DecidableEq

/-- Keyword arguments of the `GreedyRegistration` constructor call
(lines 167-179). -/
structure GreedyConfig where
  scales : List Nat
  iterations : List Nat
  fixedImg : Int
  movingImg : Int
  cc_kernel_size : Nat
  deformation_type : String
  optimizer : String
  optimizer_lr : ℚ
  smooth_grad_sigma : ℚ
  init_affine : Int
deriving DecidableEq

/-- Externally visible actions of one registration run, in program order:
stage optimizations (`.optimize()` calls) and output-file writes. -/
inductive Event where
  | momentsOptimize (cfg : MomentsConfig)
  | affineOptimize (cfg : AffineConfig)
  | greedyOptimize (cfg : GreedyConfig)
  | writeFile (path : String) (content : Int)
deriving DecidableEq

/-- Abstract numerical results of the FireANTs library calls.  Each field maps
the configuration of a fitted registration object to a token standing for a
value produced by the library (a transform, a resampled image, or serialized
file contents).  The orchestrator is verified for every oracle. -/
structure FireOracle where
  load : String → Int
  momentsInit : MomentsConfig → Int
  momentsSave : MomentsConfig → Int
  momentsMoved : MomentsConfig → Int
  affineMatrix : AffineConfig → Int
  affineSave : AffineConfig → Int
  greedyMoved : GreedyConfig → Int
  greedyForward : GreedyConfig → Int
  greedyInverse : GreedyConfig → Int

/-- Trace semantics of `run_fireants_registration` (lines 74-204), following
the source line by line: load images; optionally run moments initialization and
write its two diagnostic files; run affine registration seeded with
`init_rigid` and write the affine matrix; run greedy deformable registration
seeded with the affine matrix (with the capped iteration list and
`smooth_grad_sigma=0.5`); write the warped image and the forward and inverse
deformation fields. -/
def run_fireants_registration (o : FireOracle)
    (fixed_path moving_path out_pref profile : String)
    (do_moments : Bool) : List Event :=
  let params := _get_profile_params profile
  let fixed_batch := o.load fixed_path
  let moving_batch := o.load moving_path
  let momentsCfg : MomentsConfig :=
    { scale := 1, fixedImg := fixed_batch, movingImg := moving_batch, moments := 2,
      orientation := "rot", blur := false, loss_type := "fusedcc",
      cc_kernel_type := "rectangular", cc_kernel_size := 5 }
  let init_rigid : Option Int :=
    if do_moments then some (o.momentsInit momentsCfg) else none
  let momentsEvents : List Event :=
    if do_moments then
      [Event.momentsOptimize momentsCfg,
       Event.writeFile (out_pref ++ "MomentsInit.mat") (o.momentsSave momentsCfg),
       Event.writeFile (out_pref ++ "MomentsWarped.nii.gz") (o.momentsMoved momentsCfg)]
    else []
  let affineCfg : AffineConfig :=
    { scales := params.scales, iterations := params.iterations,
      fixedImg := fixed_batch, movingImg := moving_batch, init_rigid := init_rigid,
      loss_type := "cc", optimizer := "Adam", optimizer_lr := params.affine_lr,
      cc_kernel_size := 5 }
  let init_affine := o.affineMatrix affineCfg
  let deform_iterations := capDeformIterations params.iterations
  let greedyCfg : GreedyConfig :=
    { scales := params.scales, iterations := deform_iterations,
      fixedImg := fixed_batch, movingImg := moving_batch, cc_kernel_size := 5,
      deformation_type := "compositive", optimizer := "Adam",
      optimizer_lr := params.deform_lr, smooth_grad_sigma := 1/2,
      init_affine := init_affine }
  momentsEvents ++
    [Event.affineOptimize affineCfg,
     Event.writeFile (out_pref ++ "0GenericAffine.mat") (o.affineSave affineCfg),
     Event.greedyOptimize greedyCfg,
     Event.writeFile (out_pref ++ "Warped.nii.gz") (o.greedyMoved greedyCfg),
     Event.writeFile (out_pref ++ "Def.nii.gz") (o.greedyForward greedyCfg),
     Event.writeFile (out_pref ++ "InvDef.nii.gz") (o.greedyInverse greedyCfg)]

/-- Paths of the files written along a trace, in write order. -/
def writtenPaths (evs : List Event) : List String :=
  evs.filterMap fun e =>
    match e with
    | Event.writeFile p _ => some p
    | _ => none

/-- Path/content pairs of the files written along a trace. -/
def writtenFiles (evs : List Event) : List (String × Int) :=
  evs.filterMap fun e =>
    match e with
    | Event.writeFile p c => some (p, c)
    | _ => none

/-- Content written at a given path (first write wins). -/
def fileContent (evs : List Event) (p : String) : Option Int :=
  (writtenFiles evs).lookup p

/-- Configurations of the moments-stage optimizations in a trace. -/
def momentsConfigs (evs : List Event) : List MomentsConfig :=
  evs.filterMap fun e =>
    match e with
    | Event.momentsOptimize c => some c
    | _ => none

/-- Configurations of the affine-stage optimizations in a trace. -/
def affineConfigs (evs : List Event) : List AffineConfig :=
  evs.filterMap fun e =>
    match e with
    | Event.affineOptimize c => some c
    | _ => none

/-- Configurations of the deformable-stage optimizations in a trace. -/
def greedyConfigs (evs : List Event) : List GreedyConfig :=
  evs.filterMap fun e =>
    match e with
    | Event.greedyOptimize c => some c
    | _ => none

/-- Files retained on disk if the run dies after its first `k` actions: the
source writes every artifact directly at its final caller-specified path, so a
failure retains exactly the writes that already happened. -/
def outputsRetainedAfter (evs : List Event) (k : Nat) : List String :=
  writtenPaths (evs.take k)

/-- Recognizer for the moments-stage optimization action. -/
def isMomentsEvent : Event → Bool
  | Event.momentsOptimize _ => true
  | _ => false

/-- Recognizer for the affine-stage optimization action. -/
def isAffineEvent : Event → Bool
  | Event.affineOptimize _ => true
  | _ => false

/-- Recognizer for the deformable-stage optimization action. -/
def isGreedyEvent : Event → Bool
  | Event.greedyOptimize _ => true
  | _ => false

/-- Transform values as seen by the affine stage's initialization. -/
inductive TransformVal where
  | identity
  | solverOut (t : Int)
deriving DecidableEq

/-- Modelled from the spec: the effective initial transform of
`AffineRegistration` (FireANTs library code, not part of this repository).
Per the spec, when the moments stage is skipped "downstream stages seed from
the identity transform": a missing `init_rigid` (Python `None`) seeds the
affine stage with the identity, and a present one seeds it with the moments
result. -/
def affineEffectiveInit : Option Int → TransformVal
  | some t => TransformVal.solverOut t
  | none => TransformVal.identity

/-- One inner action of the deformable optimizer: a gradient/update step or a
smoothing of the field at strength `sigma`. -/
inductive StepAct where
  | grad
  | smooth (sigma : ℚ)
deriving DecidableEq

/-- Recognizer for smoothing actions. -/
def isSmoothAct : StepAct → Bool
  | StepAct.smooth _ => true
  | _ => false

/-- Recognizer for gradient/update actions. -/
def isGradAct : StepAct → Bool
  | StepAct.grad => true
  | _ => false

/-- Modelled from the spec: the inner loop of one pyramid level of
`GreedyRegistration` (FireANTs library code, not part of this repository).
Per the spec, the dense field "is smoothed (low-pass filtered) after each
optimization step at a configured strength": every update step is followed by
a smoothing action at the configured `sigma`. -/
def greedyLevelTrace (sigma : ℚ) : Nat → List StepAct
  | 0 => []
  | n + 1 => StepAct.grad :: StepAct.smooth sigma :: greedyLevelTrace sigma n

/-- Modelled from the spec: the full deformable optimization runs the
per-level loop for every configured iteration budget, coarse to fine. -/
def greedyOptimizeTrace (sigma : ℚ) : List Nat → List StepAct
  | [] => []
  | n :: rest => greedyLevelTrace sigma n ++ greedyOptimizeTrace sigma rest

/-- A concrete oracle, used to evaluate the trace on concrete inputs. -/
def o0 : FireOracle :=
  { load := fun _ => 0, momentsInit := fun _ => 0, momentsSave := fun _ => 0,
    momentsMoved := fun _ => 0, affineMatrix := fun _ => 0, affineSave := fun _ => 0,
    greedyMoved := fun _ => 0, greedyForward := fun _ => 0, greedyInverse := fun _ => 0 }

/-- A concrete full run (moments enabled, default profile). -/
def evs0 : List Event :=
  run_fireants_registration o0 "f.nii.gz" "m.nii.gz" "out_" "default" true

/-- Appending distinct-length suffixes to the same prefix yields distinct
strings. -/
theorem append_ne {a b : String} (p : String) (h : a.length ≠ b.length) :
    p ++ a ≠ p ++ b := by
  intro hEq
  apply h
  have hLen := congrArg String.length hEq
  simp only [String.length_append] at hLen
  omega

/-- Any profile name whose lowercase form is none of the three recognized
names falls back to the default parameters. -/
theorem profileParams_fallback (s : String) (h1 : pyLower s ≠ "test")
    (h2 : pyLower s ≠ "quick") (h3 : pyLower s ≠ "balanced") :
    _get_profile_params s =
      { scales := [4, 2, 1], iterations := [200, 100, 50], affine_lr := 3/1000, deform_lr := 1/2 } := by
  simp only [_get_profile_params]
  rw [if_neg h1, if_neg h2, if_neg h3]

/-- `_get_profile_params` returns one of exactly four parameter bundles. -/
theorem profileParamsCases (s : String) :
    _get_profile_params s =
        { scales := [4, 2, 1], iterations := [8, 2, 0], affine_lr := 3/1000, deform_lr := 1/2 } ∨
    _get_profile_params s =
        { scales := [4, 2, 1], iterations := [100, 50, 0], affine_lr := 3/1000, deform_lr := 1/2 } ∨
    _get_profile_params s =
        { scales := [4, 2, 1], iterations := [50, 50, 25], affine_lr := 3/1000, deform_lr := 1/2 } ∨
    _get_profile_params s =
        { scales := [4, 2, 1], iterations := [200, 100, 50], affine_lr := 3/1000, deform_lr := 1/2 } := by
  simp only [_get_profile_params]
  split
  · exact Or.inl rfl
  · split
    · exact Or.inr (Or.inl rfl)
    · split
      · exact Or.inr (Or.inr (Or.inl rfl))
      · exact Or.inr (Or.inr (Or.inr rfl))

/-- Claim C9: for every profile name string, `_get_profile_params` returns a
scales list and an iterations list of equal length (both of length 3), with the
scales strictly decreasing (coarsest first) and the final scale factor equal
to 1, and with strictly positive affine and deformable learning rates. -/
theorem C9_profile_invariants (profile : String) :
    (_get_profile_params profile).scales.length = 3 ∧
    (_get_profile_params profile).iterations.length = 3 ∧
    (_get_profile_params profile).scales.length = (_get_profile_params profile).iterations.length ∧
    List.Chain' (fun a b => b < a) (_get_profile_params profile).scales ∧
    (_get_profile_params profile).scales.getLastD 0 = 1 ∧
    0 < (_get_profile_params profile).affine_lr ∧
    0 < (_get_profile_params profile).deform_lr := by
  rcases profileParamsCases profile with h | h | h | h <;> rw [h] <;>
    refine ⟨rfl, rfl, rfl, ?_, rfl, by norm_num, by norm_num⟩ <;>
    norm_num [List.chain'_cons, List.chain'_singleton]

/-- Claim C10: `_get_profile_params` is total and case-insensitive over
arbitrary strings: it always returns one of the four parameter bundles,
matching is performed on the lowercased name, and any name whose lowercase
form is not `"test"`, `"quick"` or `"balanced"` — including `"default"` and
every unrecognized string — yields the default parameters
(scales (4,2,1), iterations (200,100,50), affine lr 3e-3, deform lr 0.5). -/
theorem C10_profile_total_case_insensitive (s : String) :
    (_get_profile_params s =
        { scales := [4, 2, 1], iterations := [8, 2, 0], affine_lr := 3/1000, deform_lr := 1/2 } ∨
     _get_profile_params s =
        { scales := [4, 2, 1], iterations := [100, 50, 0], affine_lr := 3/1000, deform_lr := 1/2 } ∨
     _get_profile_params s =
        { scales := [4, 2, 1], iterations := [50, 50, 25], affine_lr := 3/1000, deform_lr := 1/2 } ∨
     _get_profile_params s =
        { scales := [4, 2, 1], iterations := [200, 100, 50], affine_lr := 3/1000, deform_lr := 1/2 }) ∧
    (∀ t : String, pyLower s = pyLower t → _get_profile_params s = _get_profile_params t) ∧
    (pyLower s ≠ "test" → pyLower s ≠ "quick" → pyLower s ≠ "balanced" →
      _get_profile_params s =
        { scales := [4, 2, 1], iterations := [200, 100, 50], affine_lr := 3/1000, deform_lr := 1/2 }) ∧
    _get_profile_params "default" =
      { scales := [4, 2, 1], iterations := [200, 100, 50], affine_lr := 3/1000, deform_lr := 1/2 } := by
  refine ⟨profileParamsCases s, ?_, profileParams_fallback s,
    profileParams_fallback "default" (by decide) (by decide) (by decide)⟩
  intro t h
  simp only [_get_profile_params]
  rw [h]

/-- Witness for C10: on the concrete unrecognized name `"DEFAULT"` (uppercase)
the fallback fires, and lookup is case-insensitive on a concrete pair. -/
theorem C10_witness :
    _get_profile_params "DEFAULT" =
      { scales := [4, 2, 1], iterations := [200, 100, 50], affine_lr := 3/1000, deform_lr := 1/2 } ∧
    _get_profile_params "Quick" = _get_profile_params "qUICK" :=
  ⟨(C10_profile_total_case_insensitive "DEFAULT").2.2.1 (by decide) (by decide) (by decide),
   (C10_profile_total_case_insensitive "Quick").2.1 "qUICK" (by decide)⟩
/-- Claim C3: for every profile, the deformable stage's per-level iteration
budgets equal the affine stage's per-level budgets except at the finest level:
when the budget list has at least three levels and the final budget exceeds 25,
the final deformable budget is reduced to 25 (in the default profile the final
deformable budget 25 is below the affine finest-level budget 50); otherwise the
final budget is carried over unchanged. -/
theorem C3_deform_iteration_cap :
    (∀ its : List Nat,
        (capDeformIterations its).dropLast = its.dropLast ∧
        (capDeformIterations its).length = its.length ∧
        (capDeformIterations its).getLastD 0 =
          (if 3 ≤ its.length ∧ 25 < its.getLastD 0 then 25 else its.getLastD 0)) ∧
    (∀ (o : FireOracle) (f m pre prof : String) (dm : Bool),
        ((greedyConfigs (run_fireants_registration o f m pre prof dm)).map fun g => g.iterations)
          = [capDeformIterations (_get_profile_params prof).iterations] ∧
        ((affineConfigs (run_fireants_registration o f m pre prof dm)).map fun a => a.iterations)
          = [(_get_profile_params prof).iterations]) ∧
    capDeformIterations (_get_profile_params "default").iterations = [200, 100, 25] ∧
    (_get_profile_params "default").iterations = [200, 100, 50] ∧
    (25 : Nat) < 50 := by
  refine ⟨?_, ?_, ?_, ?_, by norm_num⟩
  · intro its
    by_cases h : 3 ≤ its.length ∧ 25 < its.getLastD 0
    · have hlen : 3 ≤ its.length := h.1
      refine ⟨?_, ?_, ?_⟩ <;>
        simp only [capDeformIterations, if_pos h, List.dropLast_concat, List.getLastD_concat,
          List.length_append, List.length_dropLast, List.length_cons, List.length_nil]
      omega
    · unfold capDeformIterations
      rw [if_neg h, if_neg h]
      exact ⟨rfl, rfl, rfl⟩
  · intro o f m pre prof dm
    cases dm <;> simp [run_fireants_registration, greedyConfigs, affineConfigs]
  · rw [profileParams_fallback "default" (by decide) (by decide) (by decide)]
    rfl
  · rw [profileParams_fallback "default" (by decide) (by decide) (by decide)]

/-- Claim C5: a successful run writes exactly these artifacts, all rooted at
the output prefix, in this order: with moments enabled, `MomentsInit.mat`,
`MomentsWarped.nii.gz`, `0GenericAffine.mat`, `Warped.nii.gz`, `Def.nii.gz`,
`InvDef.nii.gz`; with moments disabled, the last four only. -/
theorem C5_output_artifacts (o : FireOracle) (f m pre prof : String) :
    writtenPaths (run_fireants_registration o f m pre prof true)
      = [pre ++ "MomentsInit.mat", pre ++ "MomentsWarped.nii.gz",
         pre ++ "0GenericAffine.mat", pre ++ "Warped.nii.gz",
         pre ++ "Def.nii.gz", pre ++ "InvDef.nii.gz"] ∧
    writtenPaths (run_fireants_registration o f m pre prof false)
      = [pre ++ "0GenericAffine.mat", pre ++ "Warped.nii.gz",
         pre ++ "Def.nii.gz", pre ++ "InvDef.nii.gz"] := by
  constructor <;> simp [run_fireants_registration, writtenPaths]

/-- Claim C2: with `do_moments = False` the moments stage is skipped
deterministically (no moments optimization occurs in the trace), the affine
stage receives `init_rigid = None` — which, per the spec-modelled library
semantics `affineEffectiveInit`, seeds it with the identity transform — and
neither `<out_prefix>MomentsInit.mat` nor `<out_prefix>MomentsWarped.nii.gz`
is written. -/
theorem C2_no_moments_skip (o : FireOracle) (f m pre prof : String) :
    momentsConfigs (run_fireants_registration o f m pre prof false) = [] ∧
    ((affineConfigs (run_fireants_registration o f m pre prof false)).map fun a => a.init_rigid)
      = [none] ∧
    affineEffectiveInit none = TransformVal.identity ∧
    (∀ c : Int, Event.writeFile (pre ++ "MomentsInit.mat") c ∉
        run_fireants_registration o f m pre prof false) ∧
    (∀ c : Int, Event.writeFile (pre ++ "MomentsWarped.nii.gz") c ∉
        run_fireants_registration o f m pre prof false) := by
  refine ⟨by simp [run_fireants_registration, momentsConfigs],
          by simp [run_fireants_registration, affineConfigs], rfl, ?_, ?_⟩
  · intro c hc
    have h1 : pre ++ "MomentsInit.mat" ≠ pre ++ "0GenericAffine.mat" := append_ne pre (by decide)
    have h2 : pre ++ "MomentsInit.mat" ≠ pre ++ "Warped.nii.gz" := append_ne pre (by decide)
    have h3 : pre ++ "MomentsInit.mat" ≠ pre ++ "Def.nii.gz" := append_ne pre (by decide)
    have h4 : pre ++ "MomentsInit.mat" ≠ pre ++ "InvDef.nii.gz" := append_ne pre (by decide)
    simp [run_fireants_registration, h1, h2, h3, h4] at hc
  · intro c hc
    have h1 : pre ++ "MomentsWarped.nii.gz" ≠ pre ++ "0GenericAffine.mat" :=
      append_ne pre (by decide)
    have h2 : pre ++ "MomentsWarped.nii.gz" ≠ pre ++ "Warped.nii.gz" := append_ne pre (by decide)
    have h3 : pre ++ "MomentsWarped.nii.gz" ≠ pre ++ "Def.nii.gz" := append_ne pre (by decide)
    have h4 : pre ++ "MomentsWarped.nii.gz" ≠ pre ++ "InvDef.nii.gz" := append_ne pre (by decide)
    simp [run_fireants_registration, h1, h2, h3, h4] at hc

/-- Witness for C2 at concrete inputs: the skipped moments stage and the
`None` affine seed on a concrete run. -/
theorem C2_witness :
    Event.writeFile ("out_" ++ "MomentsInit.mat") 0 ∉
      run_fireants_registration o0 "f.nii.gz" "m.nii.gz" "out_" "default" false ∧
    ((affineConfigs (run_fireants_registration o0 "f.nii.gz" "m.nii.gz" "out_" "default" false)).map
        fun a => a.init_rigid) = [none] :=
  ⟨(C2_no_moments_skip o0 "f.nii.gz" "m.nii.gz" "out_" "default").2.2.2.1 0,
   (C2_no_moments_skip o0 "f.nii.gz" "m.nii.gz" "out_" "default").2.1⟩

/-- Claim C6: a run executes its stages strictly sequentially in the order
moments (optional) → affine → deformable → export, and each stage consumes the
previous stage's output as its seed: the affine configuration's `init_rigid`
is the moments result, the greedy configuration's `init_affine` is the affine
matrix, the three stage optimizations occur exactly once each at increasing
trace positions, and the export writes follow the deformable optimization. -/
theorem C6_stage_sequencing (o : FireOracle) (f m pre prof : String) :
    (momentsConfigs (run_fireants_registration o f m pre prof true)).length = 1 ∧
    (affineConfigs (run_fireants_registration o f m pre prof true)).length = 1 ∧
    (greedyConfigs (run_fireants_registration o f m pre prof true)).length = 1 ∧
    ((affineConfigs (run_fireants_registration o f m pre prof true)).map fun a => a.init_rigid)
      = ((momentsConfigs (run_fireants_registration o f m pre prof true)).map
          fun c => some (o.momentsInit c)) ∧
    ((greedyConfigs (run_fireants_registration o f m pre prof true)).map fun g => g.init_affine)
      = ((affineConfigs (run_fireants_registration o f m pre prof true)).map
          fun a => o.affineMatrix a) ∧
    (run_fireants_registration o f m pre prof true).findIdx isMomentsEvent = 0 ∧
    (run_fireants_registration o f m pre prof true).findIdx isAffineEvent = 3 ∧
    (run_fireants_registration o f m pre prof true).findIdx isGreedyEvent = 5 ∧
    outputsRetainedAfter (run_fireants_registration o f m pre prof true) 5
      = [pre ++ "MomentsInit.mat", pre ++ "MomentsWarped.nii.gz", pre ++ "0GenericAffine.mat"] ∧
    writtenPaths ((run_fireants_registration o f m pre prof true).drop 6)
      = [pre ++ "Warped.nii.gz", pre ++ "Def.nii.gz", pre ++ "InvDef.nii.gz"] ∧
    ((affineConfigs (run_fireants_registration o f m pre prof false)).map fun a => a.init_rigid)
      = [none] := by
  refine ⟨?_, ?_, ?_, ?_, ?_, ?_, ?_, ?_, ?_, ?_, ?_⟩ <;>
    simp [run_fireants_registration, momentsConfigs, affineConfigs, greedyConfigs,
      isMomentsEvent, isAffineEvent, isGreedyEvent, outputsRetainedAfter, writtenPaths,
      List.findIdx_cons]

/-- Claim C4 is false on the code: the moments initialization is constructed
with `scale=1.0` (full resolution, line 109), not at the coarsest pyramid
level of the active profile — in the default profile the coarsest pyramid
scale factor is 4, and the moments scale 1 differs from it. -/
theorem C4_counterexample :
    ((momentsConfigs evs0).map fun c => c.scale) = [1] ∧
    (_get_profile_params "default").scales.headD 0 = 4 ∧
    (1 : ℚ) ≠ 4 := by
  refine ⟨?_, ?_, by norm_num⟩
  · simp [evs0, run_fireants_registration, momentsConfigs, o0]
  · rw [profileParams_fallback "default" (by decide) (by decide) (by decide)]
    rfl

/-- Claim C4 amended: when the moments stage is enabled, the moments
initialization runs exactly once, at the single fixed scale 1.0 (full
resolution), independent of the profile's resolution pyramid and of the later
per-level coarse-to-fine loop. -/
theorem C4_moments_single_scale (o : FireOracle) (f m pre prof prof2 : String) :
    ((momentsConfigs (run_fireants_registration o f m pre prof true)).map fun c => c.scale)
      = [1] ∧
    (momentsConfigs (run_fireants_registration o f m pre prof true)).length = 1 ∧
    momentsConfigs (run_fireants_registration o f m pre prof true)
      = momentsConfigs (run_fireants_registration o f m pre prof2 true) ∧
    momentsConfigs (run_fireants_registration o f m pre prof false) = [] := by
  refine ⟨?_, ?_, ?_, ?_⟩ <;> simp [run_fireants_registration, momentsConfigs]

/-- Claim C1 is false on the code: outputs are not written to a temporary
location and atomically published.  On the concrete default-profile run, a
failure during the deformable optimization (the sixth action, after the first
five actions completed) retains three output files at the caller-specified
prefix — neither none nor all of the run's six artifacts. -/
theorem C1_counterexample :
    outputsRetainedAfter evs0 5
      = ["out_MomentsInit.mat", "out_MomentsWarped.nii.gz", "out_0GenericAffine.mat"] ∧
    outputsRetainedAfter evs0 5 ≠ [] ∧
    outputsRetainedAfter evs0 5 ≠ writtenPaths evs0 ∧
    ¬ (∀ k : Nat, outputsRetainedAfter evs0 k = [] ∨
        outputsRetainedAfter evs0 k = writtenPaths evs0) := by
  refine ⟨by decide, by decide, by decide, fun h => ?_⟩
  rcases h 5 with h5 | h5 <;> revert h5 <;> decide

/-- Claim C1 amended: each artifact is written directly at its final
caller-specified path as soon as its stage completes, with no temporary
location or atomic publish; a failure in a later stage retains exactly the
artifacts already written by the earlier stages (a prefix of the run's write
sequence) — e.g. a failure during the deformable optimization retains the two
moments diagnostics and the affine matrix. -/
theorem C1_retained_direct_writes (o : FireOracle) (f m pre prof : String) (dm : Bool) (k : Nat) :
    outputsRetainedAfter (run_fireants_registration o f m pre prof dm) k
      ⊆ writtenPaths (run_fireants_registration o f m pre prof dm) ∧
    outputsRetainedAfter (run_fireants_registration o f m pre prof true) 5
      = [pre ++ "MomentsInit.mat", pre ++ "MomentsWarped.nii.gz", pre ++ "0GenericAffine.mat"] ∧
    writtenPaths (run_fireants_registration o f m pre prof true)
      = [pre ++ "MomentsInit.mat", pre ++ "MomentsWarped.nii.gz", pre ++ "0GenericAffine.mat",
         pre ++ "Warped.nii.gz", pre ++ "Def.nii.gz", pre ++ "InvDef.nii.gz"] := by
  refine ⟨?_, ?_, ?_⟩
  · intro a ha
    have hsub : List.Sublist ((run_fireants_registration o f m pre prof dm).take k)
        (run_fireants_registration o f m pre prof dm) := List.take_sublist k _
    exact (List.Sublist.filterMap (fun e =>
      match e with
      | Event.writeFile p _ => some p
      | _ => none) hsub).subset ha
  · simp [run_fireants_registration, outputsRetainedAfter, writtenPaths]
  · simp [run_fireants_registration, writtenPaths]

/-- Witness for the amended C1 on a concrete run: an artifact retained after a
failure during the deformable stage is among the run's outputs. -/
theorem C1_retained_witness :
    "out_MomentsInit.mat" ∈ writtenPaths evs0 :=
  (C1_retained_direct_writes o0 "f.nii.gz" "m.nii.gz" "out_" "default" true 5).1 (by decide)

/-- The per-level smoothing trace contains a smoothing action at the
configured strength immediately after every gradient step. -/
theorem greedyLevelTrace_step (sigma : ℚ) :
    ∀ n i : Nat, (greedyLevelTrace sigma n)[i]? = some StepAct.grad →
      (greedyLevelTrace sigma n)[i + 1]? = some (StepAct.smooth sigma)
  | 0, i => by simp [greedyLevelTrace]
  | n + 1, 0 => by simp [greedyLevelTrace]
  | n + 1, 1 => by simp [greedyLevelTrace]
  | n + 1, i + 2 => by
    intro h
    simpa [greedyLevelTrace] using
      greedyLevelTrace_step sigma n i (by simpa [greedyLevelTrace] using h)

/-- One pyramid level of budget `n` performs exactly `n` gradient steps and
`n` smoothing actions. -/
theorem greedyLevelTrace_counts (sigma : ℚ) (n : Nat) :
    (greedyLevelTrace sigma n).countP isSmoothAct = n ∧
    (greedyLevelTrace sigma n).countP isGradAct = n := by
  induction n with
  | zero => simp [greedyLevelTrace]
  | succ k ih =>
      simp [greedyLevelTrace, List.countP_cons, isSmoothAct, isGradAct, ih.1, ih.2]

/-- Over all pyramid levels, smoothing actions and gradient steps are equal in
number (one smoothing per step, at every level). -/
theorem greedyOptimizeTrace_counts (sigma : ℚ) (its : List Nat) :
    (greedyOptimizeTrace sigma its).countP isSmoothAct = its.sum ∧
    (greedyOptimizeTrace sigma its).countP isGradAct = its.sum := by
  induction its with
  | nil => simp [greedyOptimizeTrace]
  | cons n rest ih =>
      simp [greedyOptimizeTrace, List.countP_append, (greedyLevelTrace_counts sigma n).1,
        (greedyLevelTrace_counts sigma n).2, ih.1, ih.2]

/-- Claim C7: the deformable stage's configured smoothing strength is the
constant 0.5 for every profile and every run (the `smooth_grad_sigma=0.5`
argument at line 176), and in the spec-modelled optimizer loop a smoothing at
that strength follows every optimization step, at every pyramid level — the
number of smoothing actions equals the number of steps. -/
theorem C7_smoothing_every_step (o : FireOracle) (f m pre prof : String) (dm : Bool)
    (sigma : ℚ) (n i : Nat) (its : List Nat) :
    ((greedyConfigs (run_fireants_registration o f m pre prof dm)).map
        fun g => g.smooth_grad_sigma) = [1/2] ∧
    ((greedyLevelTrace sigma n)[i]? = some StepAct.grad →
      (greedyLevelTrace sigma n)[i + 1]? = some (StepAct.smooth sigma)) ∧
    (greedyOptimizeTrace sigma its).countP isSmoothAct
      = (greedyOptimizeTrace sigma its).countP isGradAct := by
  refine ⟨?_, greedyLevelTrace_step sigma n i, ?_⟩
  · cases dm <;> simp [run_fireants_registration, greedyConfigs]
  · rw [(greedyOptimizeTrace_counts sigma its).1, (greedyOptimizeTrace_counts sigma its).2]

/-- Witness for C7: in a concrete two-step level at strength 1/2, the action
following the first gradient step is a smoothing at 1/2. -/
theorem C7_witness :
    (greedyLevelTrace (1/2) 2)[1]? = some (StepAct.smooth (1/2)) :=
  (C7_smoothing_every_step o0 "f.nii.gz" "m.nii.gz" "p_" "default" true (1/2) 2 0 [2]).2.1
    (by simp [greedyLevelTrace])

/-- Claim C8: the orchestrator is deterministic — two runs on identical fixed
and moving inputs, the same output prefix, profile and `do_moments` flag, with
solvers that agree pointwise (a deterministic/seeded optimizer), produce
identical traces, and in particular identical affine-matrix, forward-field and
inverse-field outputs. -/
theorem C8_deterministic_replay (o1 o2 : FireOracle) (f m pre prof : String) (dm : Bool)
    (hload : ∀ s, o1.load s = o2.load s)
    (hmomentsInit : ∀ c, o1.momentsInit c = o2.momentsInit c)
    (hmomentsSave : ∀ c, o1.momentsSave c = o2.momentsSave c)
    (hmomentsMoved : ∀ c, o1.momentsMoved c = o2.momentsMoved c)
    (haffineMatrix : ∀ c, o1.affineMatrix c = o2.affineMatrix c)
    (haffineSave : ∀ c, o1.affineSave c = o2.affineSave c)
    (hgreedyMoved : ∀ c, o1.greedyMoved c = o2.greedyMoved c)
    (hgreedyForward : ∀ c, o1.greedyForward c = o2.greedyForward c)
    (hgreedyInverse : ∀ c, o1.greedyInverse c = o2.greedyInverse c) :
    run_fireants_registration o1 f m pre prof dm
      = run_fireants_registration o2 f m pre prof dm ∧
    fileContent (run_fireants_registration o1 f m pre prof dm) (pre ++ "0GenericAffine.mat")
      = fileContent (run_fireants_registration o2 f m pre prof dm) (pre ++ "0GenericAffine.mat") ∧
    fileContent (run_fireants_registration o1 f m pre prof dm) (pre ++ "Def.nii.gz")
      = fileContent (run_fireants_registration o2 f m pre prof dm) (pre ++ "Def.nii.gz") ∧
    fileContent (run_fireants_registration o1 f m pre prof dm) (pre ++ "InvDef.nii.gz")
      = fileContent (run_fireants_registration o2 f m pre prof dm) (pre ++ "InvDef.nii.gz") := by
  have h : run_fireants_registration o1 f m pre prof dm
      = run_fireants_registration o2 f m pre prof dm := by
    simp only [run_fireants_registration, hload, hmomentsInit, hmomentsSave, hmomentsMoved,
      haffineMatrix, haffineSave, hgreedyMoved, hgreedyForward, hgreedyInverse]
  exact ⟨h, by rw [h], by rw [h], by rw [h]⟩

/-- Witness for C8: the determinism theorem applied at a concrete oracle and
concrete inputs. -/
theorem C8_witness :
    run_fireants_registration o0 "f.nii.gz" "m.nii.gz" "p_" "default" true
      = run_fireants_registration o0 "f.nii.gz" "m.nii.gz" "p_" "default" true :=
  (C8_deterministic_replay o0 o0 "f.nii.gz" "m.nii.gz" "p_" "default" true
    (fun _s => rfl) (fun _c1 => rfl) (fun _c2 => rfl) (fun _c3 => rfl) (fun _c4 => rfl)
    (fun _c5 => rfl) (fun _c6 => rfl) (fun _c7 => rfl) (fun _c8 => rfl)).1
